import Mathlib

/-!
Shallow embedding of `main.go` of the `sthlmshem-sok-forrad` program.

The program is an AWS-lambda handler that logs in to stockholmshem.se,
checks a widgets endpoint for available storage units ("förråd") and
publishes an SNS notification when units appear available.  External
effects (environment, HTTP transport, AWS/SNS) are modelled as explicit
inputs (`World`), and the effects the program performs are collected in
an explicit trace (`Effect`).  Strings are modelled as lists of
characters; `strings.Contains`, `strings.ReplaceAll` and decimal
formatting (`fmt.Sprintf` with the d verb) are embedded as executable
functions below.
-/

namespace SthlmShem

/-- Embeds the matching underlying Go `strings.HasPrefix`:
`startsWithL pat l` is true when `l` starts with `pat`. -/
def startsWithL : List Char → List Char → Bool
  | [], _ => true
  | _ :: _, [] => false
  | a :: pat, b :: l => a == b && startsWithL pat l

/-- Embeds `strings.Contains(l, pat)`: substring occurrence scan. -/
def containsL : List Char → List Char → Bool
  | [], pat => pat.isEmpty
  | a :: t, pat => startsWithL pat (a :: t) || containsL t pat

/-- The specification-side occurrence predicate: `pat` occurs as a
contiguous substring of `l`. -/
def OccursIn (pat l : List Char) : Prop := ∃ s t, l = s ++ pat ++ t

/-- A single decimal digit character. -/
def digitChar (n : Nat) : Char :=
  match n with
  | 0 => '0'
  | 1 => '1'
  | 2 => '2'
  | 3 => '3'
  | 4 => '4'
  | 5 => '5'
  | 6 => '6'
  | 7 => '7'
  | 8 => '8'
  | _ => '9'

/-- Fuelled digit expansion of a natural number, most significant first. -/
def decDigitsAux : Nat → Nat → List Char
  | 0, _ => []
  | _ + 1, 0 => []
  | f + 1, m + 1 => decDigitsAux f ((m + 1) / 10) ++ [digitChar ((m + 1) % 10)]

/-- Decimal representation of a natural number. -/
def decNat (n : Nat) : List Char := if n = 0 then ['0'] else decDigitsAux n n

/-- Embeds `fmt.Sprintf` with the d verb on an int64: decimal
representation of an integer, with a leading minus sign when negative. -/
def decRepr (n : Int) : List Char :=
  if n < 0 then '-' :: decNat n.natAbs else decNat n.natAbs

/-- Fuelled scanner for `strings.Replace` with a non-empty pattern:
leftmost-first, non-overlapping replacement of `pat` by `rep`. -/
def replaceAllAux (pat rep : List Char) : Nat → List Char → List Char
  | _, [] => []
  | 0, l => l
  | f + 1, a :: l =>
    if startsWithL pat (a :: l) then
      rep ++ replaceAllAux pat rep f (List.drop pat.length (a :: l))
    else
      a :: replaceAllAux pat rep f l

/-- Embeds `strings.ReplaceAll(l, pat, rep)`.  Go treats an empty
pattern specially (the replacement is inserted before every character
and at the end); otherwise the leftmost-first scan applies. -/
def replaceAllL (l pat rep : List Char) : List Char :=
  if pat = [] then rep ++ (l.map (fun c => c :: rep)).flatten
  else replaceAllAux pat rep l.length l

/-- An HTTP cookie (name and value; the remaining Go fields are not
used by the program). -/
structure Cookie where
  name : String
  value : String
deriving DecidableEq, Repr

/-- A delivered HTTP response: status code, the result of reading the
body (`ioutil.ReadAll` may fail), the cookies set by the response, and
the final resolved URL (`resp.Request.URL`). -/
structure Response where
  status : Nat
  body : Except String String
  cookies : List Cookie
  url : String
deriving Repr

/-- The outcome of `client.Do`: transport failure or a delivered response. -/
inductive TransportResult where
  | fail (msg : String)
  | ok (resp : Response)
deriving Repr

/-- The redirect policy of an `http.Client`.  `useLastResponse` models a
`CheckRedirect` returning `http.ErrUseLastResponse`. -/
inductive RedirectPolicy where
  | followRedirects
  | useLastResponse
deriving DecidableEq, Repr

/-- The `http.Client` state the program observes: its cookie jar
(modelled as an association list keyed by the URL the cookies were
stored under), timeout and redirect policy. -/
structure Client where
  jar : List (String × Cookie)
  timeoutMillis : Nat
  redirect : RedirectPolicy
deriving DecidableEq, Repr

/-- An outbound request as built by `createHTTPRequest`. -/
structure Request where
  method : String
  url : String
  payload : String
  headers : List (String × String)
deriving DecidableEq, Repr

/-- The result of `sendHTTPRequest`: body (`none` models a nil byte
slice), error (`none` models a nil error) and the possibly updated
client. -/
structure SendResult where
  body : Option String
  err : Option String
  client : Client
deriving Repr

/-- Observable effects performed by the handler. -/
inductive Effect where
  | envLookup (name : String)
  | httpRequest (method url : String)
  | awsConfig
  | snsPublish (topic subject message : String)
deriving DecidableEq, Repr

/-- The external world an invocation runs against: the environment, the
transport outcomes of the two HTTP calls, and the AWS configuration and
publish outcomes. -/
structure World where
  env : String → Option String
  jarFail : Option String
  loginTransport : TransportResult
  forradTransport : TransportResult
  awsConfig : Except String Unit
  publishResult : Except String Unit

/-- The marker string meaning that the search returned no results. -/
def searchString : String := "Sökningen gav inga träffar"

/-- The fixed SNS subject. -/
def snsSubject : String := "Nytt förråd!"

/-- The fixed SNS message. -/
def snsMessage : String :=
  "Det verkar finnas ett nytt förråd tillgängligt!\n\nGå till https://www.stockholmshem.se/mina-sidor/smaforrad/ för att kontrollera"

/-- The fixed header map. -/
def headersList : List (String × String) :=
  [("User-Agent", "Mozilla/5.0 (Macintosh; Intel Mac OS X 10_15_0) AppleWebKit/537.36 (KHTML, like Gecko) Chrome/84.0.4147.89 Safari/537.36"),
   ("Accept", "*/*"),
   ("Content-Type", "application/x-www-form-urlencoded")]

/-- The login endpoint. -/
def loginURL : String :=
  "https://www.stockholmshem.se/logga-in/?returnUrl=/mina-sidor/smaforrad/"

/-- The availability endpoint template (with epoch placeholders). -/
def forradURL : String :=
  "https://www.stockholmshem.se/widgets/?callback=jQuery17105048823634686723_{epoch}&widgets%5B%5D=alert&widgets%5B%5D=objektlista%40forrad&_={epoch}"

/-- The placeholder token replaced by the current time. -/
def epochPlaceholder : String := "{epoch}"

/-- Embeds `cookiejar.New(nil)`: either fails with the given message or
produces an empty jar. -/
def cookiejarNew (fail : Option String) : Except String (List (String × Cookie)) :=
  match fail with
  | some e => .error e
  | none => .ok []

/-- Embeds `createHTTPClient`: builds a client with a fresh cookie jar,
the given timeout in milliseconds, and a `CheckRedirect` that returns
`http.ErrUseLastResponse`. -/
def createHTTPClient (timeout : Nat) (jarFail : Option String) : Except String Client :=
  match cookiejarNew jarFail with
  | .error e => .error ("couldn't create cookie jar. " ++ e)
  | .ok jar => .ok { jar := jar, timeoutMillis := timeout, redirect := .useLastResponse }

/-- Semantics of the redirect policy: under `useLastResponse` a redirect
response is returned to the caller as-is; under `followRedirects` a 3xx
response would be chased by `follow`. -/
def handleRedirect (p : RedirectPolicy) (resp : Response) (follow : Response → Response) : Response :=
  match p with
  | .useLastResponse => resp
  | .followRedirects =>
    if 300 ≤ resp.status ∧ resp.status < 400 then follow resp else resp

/-- Embeds `createHTTPRequest`: replaces every epoch placeholder in the
URL with `now.Unix() * 1000` in decimal (where `now` is the current Unix
time in seconds) and attaches the headers. -/
def createHTTPRequest (method url payload : String) (headers : List (String × String)) (now : Int) : Request :=
  { method := method,
    url := String.mk (replaceAllL url.toList epochPlaceholder.toList (decRepr (now * 1000))),
    payload := payload,
    headers := headers }

/-- Embeds `Jar.SetCookies(url, cookies)` at the granularity the program
observes: the cookies are stored keyed by the URL. -/
def setCookies (jar : List (String × Cookie)) (url : String) (cookies : List Cookie) :
    List (String × Cookie) :=
  jar ++ cookies.map (fun c => (url, c))

/-- The cookies of a jar retrievable for a URL. -/
def cookiesFor (jar : List (String × Cookie)) (url : String) : List Cookie :=
  (jar.filter (fun p => p.1 = url)).map Prod.snd

/-- The status-mismatch error message of `sendHTTPRequest`. -/
def statusMismatchMsg (wanted got : Nat) (url : String) : String :=
  "status code missmatch. wanted " ++ toString wanted ++ " got " ++ toString got ++ " for " ++ url

/-- Embeds `sendHTTPRequest`: on transport failure or body-read failure
return a nil body with the error; read the body before comparing the
status; on a status mismatch return the body together with the mismatch
error; on a match save all response cookies into the jar and return the
body. -/
def sendHTTPRequest (client : Client) (tr : TransportResult) (statusCode : Nat) : SendResult :=
  match tr with
  | .fail msg => { body := none, err := some ("couldn't send http request. " ++ msg), client := client }
  | .ok resp =>
    match resp.body with
    | .error msg => { body := none, err := some ("couldn't read body of response. " ++ msg), client := client }
    | .ok body =>
      if resp.status ≠ statusCode then
        { body := some body,
          err := some (statusMismatchMsg statusCode resp.status resp.url),
          client := client }
      else
        { body := some body, err := none,
          client := { client with jar := setCookies client.jar resp.url resp.cookies } }

/-- Embeds `createLoginPayload`: look up PERSONNR then PASSWORD and
build `Username=<id>&Password=<password>` with no escaping.  The second
component records the environment lookups performed. -/
def createLoginPayload (env : String → Option String) : Except String String × List Effect :=
  match env "PERSONNR" with
  | none => (.error "couldn't get PERSONNR from environment", [.envLookup "PERSONNR"])
  | some user =>
    match env "PASSWORD" with
    | none => (.error "couldn't get PASSWORD from environment",
               [.envLookup "PERSONNR", .envLookup "PASSWORD"])
    | some pass =>
      (.ok ("Username=" ++ user ++ "&Password=" ++ pass),
       [.envLookup "PERSONNR", .envLookup "PASSWORD"])

/-- Embeds `login`: build the payload, POST it to the login endpoint and
require status 302; the updated client carries the session cookies. -/
def login (client : Client) (env : String → Option String) (tr : TransportResult) (now : Int) :
    Except String Client × List Effect :=
  match createLoginPayload env with
  | (.error e, eff) => (.error e, eff)
  | (.ok payload, eff) =>
    let req := createHTTPRequest "POST" loginURL payload headersList now
    let r := sendHTTPRequest client tr 302
    match r.err with
    | some e => (.error e, eff ++ [.httpRequest req.method req.url])
    | none => (.ok r.client, eff ++ [.httpRequest req.method req.url])

/-- The availability check of `forrad`: true exactly when the body does
not contain the marker string. -/
def checkAvailability (body : String) : Bool :=
  !(containsL body.toList searchString.toList)

/-- Embeds `forrad`: GET the widgets endpoint, require status 200, and
interpret the body by absence of the marker string. -/
def forrad (client : Client) (tr : TransportResult) (now : Int) :
    Except String (Bool × Client) × List Effect :=
  let req := createHTTPRequest "GET" forradURL "" headersList now
  let r := sendHTTPRequest client tr 200
  match r.err with
  | some e => (.error e, [.httpRequest req.method req.url])
  | none => (.ok (checkAvailability (r.body.getD ""), r.client), [.httpRequest req.method req.url])

/-- Embeds `send`: when no unit is available return immediately;
otherwise look up TOPIC, load the AWS configuration and publish the
fixed subject and message to the topic. -/
def send (env : String → Option String) (awsCfg : Except String Unit)
    (pub : Except String Unit) (hasNew : Bool) : Except String Unit × List Effect :=
  if hasNew = false then (.ok (), [])
  else
    match env "TOPIC" with
    | none => (.error "couldn't get TOPIC from environment", [.envLookup "TOPIC"])
    | some topic =>
      match awsCfg with
      | .error e => (.error ("couldn't load AWS config. " ++ e), [.envLookup "TOPIC", .awsConfig])
      | .ok _ =>
        match pub with
        | .error e =>
          (.error ("couldn't publish to sns. " ++ e),
           [.envLookup "TOPIC", .awsConfig, .snsPublish topic snsSubject snsMessage])
        | .ok _ =>
          (.ok (), [.envLookup "TOPIC", .awsConfig, .snsPublish topic snsSubject snsMessage])

/-- Embeds `handler`: create the client, log in, check availability and
notify, stopping at the first error. -/
def handler (w : World) (now : Int) : Except String Unit × List Effect :=
  match createHTTPClient 10000 w.jarFail with
  | .error e => (.error e, [])
  | .ok client =>
    match login client w.env w.loginTransport now with
    | (.error e, eff1) => (.error e, eff1)
    | (.ok client1, eff1) =>
      match forrad client1 w.forradTransport now with
      | (.error e, eff2) => (.error e, eff1 ++ eff2)
      | (.ok (hasNew, _), eff2) =>
        match send w.env w.awsConfig w.publishResult hasNew with
        | (r, eff3) => (r, eff1 ++ eff2 ++ eff3)

theorem startsWithL_iff (pat l : List Char) : startsWithL pat l = true ↔ ∃ t, l = pat ++ t := by
  induction pat generalizing l with
  | nil => exact iff_of_true rfl ⟨l, rfl⟩
  | cons a pat ih =>
    cases l with
    | nil => simp [startsWithL]
    | cons b l =>
      constructor
      · intro h
        simp only [startsWithL, Bool.and_eq_true, beq_iff_eq] at h
        obtain ⟨rfl, h2⟩ := h
        obtain ⟨t, rfl⟩ := (ih l).1 h2
        exact ⟨t, rfl⟩
      · rintro ⟨t, ht⟩
        simp only [List.cons_append, List.cons.injEq] at ht
        obtain ⟨rfl, rfl⟩ := ht
        simp [startsWithL, (ih (pat ++ t)).2 ⟨t, rfl⟩]

theorem occursIn_cons_iff (pat : List Char) (a : Char) (l : List Char) :
    OccursIn pat (a :: l) ↔ (∃ u, a :: l = pat ++ u) ∨ OccursIn pat l := by
  constructor
  · rintro ⟨s, t, h⟩
    cases s with
    | nil => exact Or.inl ⟨t, by simpa using h⟩
    | cons c s =>
      have hc : a = c ∧ l = s ++ pat ++ t := by simpa using h
      exact Or.inr ⟨s, t, hc.2⟩
  · rintro (⟨u, hu⟩ | ⟨s, t, h⟩)
    · exact ⟨[], u, by simpa using hu⟩
    · exact ⟨a :: s, t, by simp [h]⟩

theorem containsL_iff (l pat : List Char) : containsL l pat = true ↔ OccursIn pat l := by
  induction l with
  | nil =>
    cases pat with
    | nil => exact iff_of_true rfl ⟨[], [], rfl⟩
    | cons a pat =>
      constructor
      · intro h; simp [containsL] at h
      · rintro ⟨s, t, h⟩
        exact absurd h.symm (by simp)
  | cons a l ih =>
    have : containsL (a :: l) pat = (startsWithL pat (a :: l) || containsL l pat) := rfl
    rw [this, occursIn_cons_iff]
    simp [Bool.or_eq_true, startsWithL_iff, ih]

theorem occursIn_append_left (pat x y : List Char) (h : OccursIn pat y) :
    OccursIn pat (x ++ y) := by
  obtain ⟨s, t, rfl⟩ := h
  exact ⟨x ++ s, t, by simp⟩

theorem occursIn_append_disjoint (pat x y : List Char) (hpat : pat ≠ [])
    (hD : ∀ c ∈ pat, c ∉ x) (h : OccursIn pat (x ++ y)) : OccursIn pat y := by
  induction x with
  | nil => simpa using h
  | cons a x ih =>
    have h' : OccursIn pat (a :: (x ++ y)) := by simpa using h
    rcases (occursIn_cons_iff pat a (x ++ y)).1 h' with ⟨u, hu⟩ | h2
    · cases pat with
      | nil => exact absurd rfl hpat
      | cons q pat' =>
        have hq : a = q ∧ x ++ y = pat' ++ u := by simpa using hu
        have : q ∈ q :: pat' := List.mem_cons_self q pat'
        have hnq := hD q this
        rw [← hq.1] at hnq
        exact absurd (List.mem_cons_self a x) hnq
    · exact ih (fun c hc hcx => hD c hc (List.mem_cons_of_mem a hcx)) h2

theorem replaceAllAux_leads_rev (pat rep : List Char) (hrep : rep ≠ [])
    (hD : ∀ c ∈ pat, c ∉ rep) :
    ∀ fuel l pat', l.length ≤ fuel → pat' ≠ [] → (∀ c ∈ pat', c ∈ pat) →
      (∃ t, replaceAllAux pat rep fuel l = pat' ++ t) → ∃ t, l = pat' ++ t := by
  intro fuel
  induction fuel with
  | zero =>
    intro l pat' hlen hne _ hpre
    have hl : l = [] := List.length_eq_zero.mp (Nat.le_zero.mp hlen)
    subst hl
    obtain ⟨t, ht⟩ := hpre
    simp only [replaceAllAux] at ht
    exact absurd (List.append_eq_nil.mp ht.symm).1 hne
  | succ f ih =>
    intro l pat' hlen hne hsub hpre
    cases l with
    | nil =>
      obtain ⟨t, ht⟩ := hpre
      simp only [replaceAllAux] at ht
      exact absurd (List.append_eq_nil.mp ht.symm).1 hne
    | cons a l2 =>
      obtain ⟨t, ht⟩ := hpre
      by_cases hm : startsWithL pat (a :: l2) = true
      · rw [show replaceAllAux pat rep (f + 1) (a :: l2)
              = rep ++ replaceAllAux pat rep f (List.drop pat.length (a :: l2)) from by
            simp [replaceAllAux, hm]] at ht
        cases rep with
        | nil => exact absurd rfl hrep
        | cons r0 rep' =>
          cases pat' with
          | nil => exact absurd rfl hne
          | cons q0 pat'' =>
            have hq : r0 = q0 := by simpa using congrArg (fun u => u.head?) ht
            have hq0pat : q0 ∈ pat := hsub q0 (List.mem_cons_self q0 pat'')
            have := hD q0 hq0pat
            rw [← hq] at this
            exact absurd (List.mem_cons_self r0 rep') this
      · rw [show replaceAllAux pat rep (f + 1) (a :: l2)
              = a :: replaceAllAux pat rep f l2 from by
            simp [replaceAllAux, hm]] at ht
        cases pat' with
        | nil => exact absurd rfl hne
        | cons q0 pat'' =>
          have hq : a = q0 ∧ replaceAllAux pat rep f l2 = pat'' ++ t := by simpa using ht
          cases pat'' with
          | nil => exact ⟨l2, by simp [← hq.1]⟩
          | cons p1 pat3 =>
            have hlen2 : l2.length ≤ f := by
              have := hlen
              simp only [List.length_cons] at this
              omega
            obtain ⟨t', ht'⟩ := ih l2 (p1 :: pat3) hlen2 (by simp)
              (fun c hc => hsub c (List.mem_cons_of_mem q0 hc)) ⟨t, hq.2⟩
            exact ⟨t', by simp [← hq.1, ht']⟩

theorem replaceAllAux_no_occurrence (pat rep : List Char) (hpat : pat ≠ []) (hrep : rep ≠ [])
    (hD : ∀ c ∈ pat, c ∉ rep) :
    ∀ fuel l, l.length ≤ fuel → ¬ OccursIn pat (replaceAllAux pat rep fuel l) := by
  intro fuel
  induction fuel with
  | zero =>
    intro l hlen hocc
    have hl : l = [] := List.length_eq_zero.mp (Nat.le_zero.mp hlen)
    subst hl
    obtain ⟨s, t, ht⟩ := hocc
    simp only [replaceAllAux] at ht
    exact hpat (List.append_eq_nil.mp (List.append_eq_nil.mp ht.symm).1).2
  | succ f ih =>
    intro l hlen hocc
    cases l with
    | nil =>
      obtain ⟨s, t, ht⟩ := hocc
      simp only [replaceAllAux] at ht
      exact hpat (List.append_eq_nil.mp (List.append_eq_nil.mp ht.symm).1).2
    | cons a l2 =>
      have hlen2 : l2.length ≤ f := by
        simp only [List.length_cons] at hlen
        omega
      by_cases hm : startsWithL pat (a :: l2) = true
      · rw [show replaceAllAux pat rep (f + 1) (a :: l2)
              = rep ++ replaceAllAux pat rep f (List.drop pat.length (a :: l2)) from by
            simp [replaceAllAux, hm]] at hocc
        have hR : OccursIn pat (replaceAllAux pat rep f (List.drop pat.length (a :: l2))) :=
          occursIn_append_disjoint pat rep _ hpat hD hocc
        have hp1 : 1 ≤ pat.length := by
          cases pat with
          | nil => exact absurd rfl hpat
          | cons _ _ => simp
        refine ih (List.drop pat.length (a :: l2)) ?_ hR
        simp only [List.length_drop, List.length_cons]
        omega
      · rw [show replaceAllAux pat rep (f + 1) (a :: l2)
              = a :: replaceAllAux pat rep f l2 from by
            simp [replaceAllAux, hm]] at hocc
        rcases (occursIn_cons_iff pat a _).1 hocc with ⟨u, hu⟩ | h2
        · cases pat with
          | nil => exact hpat rfl
          | cons q0 pat1 =>
            cases pat1 with
            | nil =>
              have ha : a = q0 := by simpa using congrArg (fun v => v.head?) hu
              apply hm
              rw [startsWithL_iff]
              exact ⟨l2, by simp [ha]⟩
            | cons p1 pat2 =>
              have hq : a = q0 ∧ replaceAllAux (q0 :: p1 :: pat2) rep f l2
                  = p1 :: (pat2 ++ u) := by
                simpa using hu
              have hu' : replaceAllAux (q0 :: p1 :: pat2) rep f l2 = (p1 :: pat2) ++ u := by
                simpa using hq.2
              obtain ⟨t', ht'⟩ := replaceAllAux_leads_rev (q0 :: p1 :: pat2) rep hrep hD f l2
                (p1 :: pat2) hlen2 (by simp)
                (fun c hc => List.mem_cons_of_mem q0 hc) ⟨u, hu'⟩
              apply hm
              rw [startsWithL_iff]
              exact ⟨t', by simp [hq.1, ht']⟩
        · exact ih l2 hlen2 h2

theorem replaceAllAux_rep_occurs (pat rep : List Char) (hpat : pat ≠ []) :
    ∀ fuel l, l.length ≤ fuel → OccursIn pat l →
      OccursIn rep (replaceAllAux pat rep fuel l) := by
  intro fuel
  induction fuel with
  | zero =>
    intro l hlen hocc
    have hl : l = [] := List.length_eq_zero.mp (Nat.le_zero.mp hlen)
    subst hl
    obtain ⟨s, t, ht⟩ := hocc
    exact absurd (List.append_eq_nil.mp (List.append_eq_nil.mp ht.symm).1).2 hpat
  | succ f ih =>
    intro l hlen hocc
    cases l with
    | nil =>
      obtain ⟨s, t, ht⟩ := hocc
      exact absurd (List.append_eq_nil.mp (List.append_eq_nil.mp ht.symm).1).2 hpat
    | cons a l2 =>
      have hlen2 : l2.length ≤ f := by
        simp only [List.length_cons] at hlen
        omega
      by_cases hm : startsWithL pat (a :: l2) = true
      · rw [show replaceAllAux pat rep (f + 1) (a :: l2)
              = rep ++ replaceAllAux pat rep f (List.drop pat.length (a :: l2)) from by
            simp [replaceAllAux, hm]]
        exact ⟨[], replaceAllAux pat rep f (List.drop pat.length (a :: l2)), by simp⟩
      · rw [show replaceAllAux pat rep (f + 1) (a :: l2)
              = a :: replaceAllAux pat rep f l2 from by
            simp [replaceAllAux, hm]]
        rcases (occursIn_cons_iff pat a l2).1 hocc with ⟨u, hu⟩ | h2
        · exact absurd ((startsWithL_iff pat (a :: l2)).2 ⟨u, hu⟩) hm
        · exact (occursIn_cons_iff rep a _).2 (Or.inr (ih l2 hlen2 h2))

theorem digitChar_not_special (n : Nat) :
    digitChar n ∉ epochPlaceholder.toList ∧ digitChar n ≠ '-' := by
  rcases n with _|_|_|_|_|_|_|_|_|n
  case succ.succ.succ.succ.succ.succ.succ.succ.succ =>
    exact (by decide : ('9' : Char) ∉ epochPlaceholder.toList ∧ ('9' : Char) ≠ '-')
  all_goals decide

theorem decDigitsAux_chars :
    ∀ fuel m c, c ∈ decDigitsAux fuel m → ∃ k, c = digitChar k := by
  intro fuel
  induction fuel with
  | zero =>
    intro m c hc
    simp [decDigitsAux] at hc
  | succ f ih =>
    intro m c hc
    cases m with
    | zero => simp [decDigitsAux] at hc
    | succ m =>
      simp only [decDigitsAux, List.mem_append, List.mem_singleton] at hc
      rcases hc with hc | hc
      · exact ih _ _ hc
      · exact ⟨(m + 1) % 10, hc⟩

theorem decNat_chars (n : Nat) (c : Char) (hc : c ∈ decNat n) :
    c ∉ epochPlaceholder.toList := by
  unfold decNat at hc
  by_cases h0 : n = 0
  · rw [if_pos h0] at hc
    simp at hc
    subst hc
    decide
  · rw [if_neg h0] at hc
    obtain ⟨k, rfl⟩ := decDigitsAux_chars _ _ _ hc
    exact (digitChar_not_special k).1

theorem decRepr_chars (n : Int) (c : Char) (hc : c ∈ decRepr n) :
    c ∉ epochPlaceholder.toList := by
  unfold decRepr at hc
  by_cases hneg : n < 0
  · rw [if_pos hneg] at hc
    rcases List.mem_cons.mp hc with rfl | hc
    · decide
    · exact decNat_chars _ _ hc
  · rw [if_neg hneg] at hc
    exact decNat_chars _ _ hc

theorem decNat_ne_nil (n : Nat) : decNat n ≠ [] := by
  unfold decNat
  by_cases h : n = 0
  · simp [h]
  · rw [if_neg h]
    cases n with
    | zero => exact absurd rfl h
    | succ m => simp [decDigitsAux]

theorem decRepr_ne_nil (n : Int) : decRepr n ≠ [] := by
  unfold decRepr
  by_cases h : n < 0
  · simp [h]
  · simpa [h] using decNat_ne_nil n.natAbs

/-- Claim C1: the availability check of `forrad` returns true exactly
when the response body does not contain the literal, case-sensitive
marker string "Sökningen gav inga träffar", and returns false for a
body containing the marker. -/
theorem C1_checkAvailability (body : String) :
    (checkAvailability body = true ↔ ¬ OccursIn searchString.toList body.toList) ∧
    (OccursIn searchString.toList body.toList → checkAvailability body = false) := by
  have hiff := containsL_iff body.toList searchString.toList
  have h1 : checkAvailability body = true ↔ ¬ OccursIn searchString.toList body.toList := by
    unfold checkAvailability
    rw [← hiff]
    cases containsL body.toList searchString.toList <;> simp
  refine ⟨h1, fun hocc => ?_⟩
  cases hca : checkAvailability body with
  | false => rfl
  | true => exact absurd hocc (h1.1 hca)

/-- Claim C1 witness: a body built around the literal marker makes the
availability check return false. -/
theorem C1_checkAvailability_witness :
    OccursIn searchString.toList ("abSökningen gav inga träffarcd".toList) ∧
    checkAvailability "abSökningen gav inga träffarcd" = false :=
  ⟨⟨"ab".toList, "cd".toList, by decide⟩,
   (C1_checkAvailability "abSökningen gav inga träffarcd").2
     ⟨"ab".toList, "cd".toList, by decide⟩⟩

/-- Claim C2: with PERSONNR bound to `id` and PASSWORD bound to `pw`,
`createLoginPayload` produces exactly the string
`Username=<id>&Password=<pw>`, with no escaping of either value. -/
theorem C2_createLoginPayload (env : String → Option String) (id pw : String)
    (h1 : env "PERSONNR" = some id) (h2 : env "PASSWORD" = some pw) :
    (createLoginPayload env).1 = .ok ("Username=" ++ id ++ "&Password=" ++ pw) := by
  unfold createLoginPayload
  rw [h1, h2]

/-- Claim C2 witness: concrete credentials, including characters a
form-encoder would escape, pass through verbatim. -/
theorem C2_createLoginPayload_witness :
    (createLoginPayload (fun n =>
        if n = "PERSONNR" then some "19900101-1234"
        else if n = "PASSWORD" then some "p&ss=w rd"
        else none)).1
      = .ok "Username=19900101-1234&Password=p&ss=w rd" :=
  C2_createLoginPayload _ "19900101-1234" "p&ss=w rd" rfl rfl

/-- Claim C5: for a URL template containing the epoch placeholder, the
request built by `createHTTPRequest` has a URL with no remaining
occurrence of the placeholder; the URL is the template with every
occurrence replaced by the decimal representation of `now * 1000` (the
call-time Unix time scaled to milliseconds, hence matching the current
time in milliseconds within the claim's tolerance window), and that
decimal value occurs in the URL. -/
theorem C5_createHTTPRequest_epoch (method payload : String)
    (headers : List (String × String)) (url : String) (now : Int)
    (hocc : OccursIn epochPlaceholder.toList url.toList) :
    ¬ OccursIn epochPlaceholder.toList
        (createHTTPRequest method url payload headers now).url.toList ∧
    OccursIn (decRepr (now * 1000))
        (createHTTPRequest method url payload headers now).url.toList ∧
    (createHTTPRequest method url payload headers now).url.toList
      = replaceAllL url.toList epochPlaceholder.toList (decRepr (now * 1000)) := by
  have hpat : epochPlaceholder.toList ≠ [] := by decide
  have hrep : decRepr (now * 1000) ≠ [] := decRepr_ne_nil _
  have hD : ∀ c ∈ epochPlaceholder.toList, c ∉ decRepr (now * 1000) :=
    fun c hc hcr => decRepr_chars _ _ hcr hc
  have hurl : (createHTTPRequest method url payload headers now).url.toList
      = replaceAllL url.toList epochPlaceholder.toList (decRepr (now * 1000)) := rfl
  refine ⟨?_, ?_, hurl⟩
  · rw [hurl]
    unfold replaceAllL
    rw [if_neg hpat]
    exact replaceAllAux_no_occurrence _ _ hpat hrep hD _ _ le_rfl
  · rw [hurl]
    unfold replaceAllL
    rw [if_neg hpat]
    exact replaceAllAux_rep_occurs _ _ hpat _ _ le_rfl hocc

/-- Claim C5 witness: a concrete template with one placeholder, built at
time zero. -/
theorem C5_createHTTPRequest_epoch_witness :
    OccursIn epochPlaceholder.toList ("a{epoch}b".toList) ∧
    ¬ OccursIn epochPlaceholder.toList
        (createHTTPRequest "GET" "a{epoch}b" "" [] 0).url.toList ∧
    OccursIn (decRepr (0 * 1000))
        (createHTTPRequest "GET" "a{epoch}b" "" [] 0).url.toList :=
  have h : OccursIn epochPlaceholder.toList ("a{epoch}b".toList) :=
    ⟨"a".toList, "b".toList, by decide⟩
  ⟨h, (C5_createHTTPRequest_epoch "GET" "" [] "a{epoch}b" 0 h).1,
      (C5_createHTTPRequest_epoch "GET" "" [] "a{epoch}b" 0 h).2.1⟩

/-- Claim C9: `createHTTPClient` yields a client with an empty cookie
jar, the requested timeout and a redirect policy under which a redirect
response is handed back to the caller unfollowed; it fails exactly when
the cookie jar cannot be constructed. -/
theorem C9_createHTTPClient (timeout : Nat) :
    createHTTPClient timeout none
      = .ok { jar := [], timeoutMillis := timeout, redirect := .useLastResponse } ∧
    (∀ e, createHTTPClient timeout (some e)
      = .error ("couldn't create cookie jar. " ++ e)) ∧
    (∀ c, createHTTPClient timeout none = .ok c →
      ∀ resp follow, handleRedirect c.redirect resp follow = resp) := by
  refine ⟨rfl, fun e => rfl, fun c hc resp follow => ?_⟩
  have h : ({ jar := [], timeoutMillis := timeout, redirect := .useLastResponse } : Client) = c := by
    injection hc
  rw [← h]
  rfl

/-- Claim C9 witness: the concrete client of the handler (timeout
10000), its failure case, and a 302 response passing through the
redirect policy untouched. -/
theorem C9_createHTTPClient_witness :
    createHTTPClient 10000 none
      = .ok { jar := [], timeoutMillis := 10000, redirect := .useLastResponse } ∧
    createHTTPClient 10000 (some "boom")
      = .error ("couldn't create cookie jar. " ++ "boom") ∧
    handleRedirect
        ({ jar := [], timeoutMillis := 10000, redirect := .useLastResponse } : Client).redirect
        { status := 302, body := .ok "", cookies := [], url := "u" } (fun r => r)
      = { status := 302, body := .ok "", cookies := [], url := "u" } :=
  ⟨(C9_createHTTPClient 10000).1,
   (C9_createHTTPClient 10000).2.1 "boom",
   (C9_createHTTPClient 10000).2.2 _ (C9_createHTTPClient 10000).1 _ _⟩

/-- Claim C6: `sendHTTPRequest` reads the body before the status
comparison: when a delivered response's body reads successfully but its
status differs from the expected one, the full body is returned anyway,
together with a status-mismatch error containing the wanted status, the
got status and the final resolved URL; and when the body read fails the
read error is returned without any status comparison. -/
theorem C6_sendHTTPRequest_mismatch (client : Client) (resp : Response)
    (body : String) (code : Nat) :
    (resp.body = .ok body → resp.status ≠ code →
      (sendHTTPRequest client (.ok resp) code).body = some body ∧
      (sendHTTPRequest client (.ok resp) code).err
        = some (statusMismatchMsg code resp.status resp.url) ∧
      OccursIn (toString code).toList
        (statusMismatchMsg code resp.status resp.url).toList ∧
      OccursIn (toString resp.status).toList
        (statusMismatchMsg code resp.status resp.url).toList ∧
      OccursIn resp.url.toList
        (statusMismatchMsg code resp.status resp.url).toList) ∧
    (∀ msg, resp.body = .error msg →
      (sendHTTPRequest client (.ok resp) code).err
        = some ("couldn't read body of response. " ++ msg)) := by
  constructor
  · intro hb hs
    refine ⟨?_, ?_, ?_, ?_, ?_⟩
    · simp [sendHTTPRequest, hb, hs]
    · simp [sendHTTPRequest, hb, hs]
    · exact ⟨"status code missmatch. wanted ".toList,
        (" got " ++ toString resp.status ++ " for " ++ resp.url).toList,
        by simp [statusMismatchMsg, String.data_append]⟩
    · exact ⟨("status code missmatch. wanted " ++ toString code ++ " got ").toList,
        (" for " ++ resp.url).toList,
        by simp [statusMismatchMsg, String.data_append]⟩
    · exact ⟨("status code missmatch. wanted " ++ toString code ++ " got "
          ++ toString resp.status ++ " for ").toList, [],
        by simp [statusMismatchMsg, String.data_append]⟩
  · intro msg hmsg
    simp [sendHTTPRequest, hmsg]

/-- Claim C6 witness: a 200 response against an expected 302. -/
theorem C6_sendHTTPRequest_mismatch_witness :
    (sendHTTPRequest { jar := [], timeoutMillis := 10000, redirect := .useLastResponse }
        (.ok { status := 200, body := .ok "diagnostic body", cookies := [], url := "u" }) 302).body
      = some "diagnostic body" ∧
    (sendHTTPRequest { jar := [], timeoutMillis := 10000, redirect := .useLastResponse }
        (.ok { status := 200, body := .ok "diagnostic body", cookies := [], url := "u" }) 302).err
      = some (statusMismatchMsg 302 200 "u") :=
  have h := (C6_sendHTTPRequest_mismatch
    { jar := [], timeoutMillis := 10000, redirect := .useLastResponse }
    { status := 200, body := .ok "diagnostic body", cookies := [], url := "u" }
    "diagnostic body" 302).1 rfl (by decide)
  ⟨h.1, h.2.1⟩

/-- Claim C7 counterexample: a response whose status matches the
expected status but whose body read fails; its cookie is not merged
into the jar, so the claim as stated (cookies merged after every
status-matching response) fails on the code. -/
theorem C7_cookie_merge_counterexample :
    ({ status := 200, body := .error "connection reset",
       cookies := [{ name := "X", value := "1" }], url := "u" } : Response).status = 200 ∧
    ({ name := "X", value := "1" } : Cookie) ∉
      cookiesFor (sendHTTPRequest
        { jar := [], timeoutMillis := 10000, redirect := .useLastResponse }
        (.ok { status := 200, body := .error "connection reset",
               cookies := [{ name := "X", value := "1" }], url := "u" }) 200).client.jar
        "u" :=
  ⟨rfl, by simp [sendHTTPRequest, cookiesFor]⟩

/-- Claim C7 (amended): after every response whose status matches the
expected status and whose body is read successfully, all cookies
present on that response are merged into the session's cookie store
keyed by the final resolved URL, and are retrievable for that URL. -/
theorem C7_cookie_merge (client : Client) (resp : Response) (body : String) (code : Nat)
    (hb : resp.body = .ok body) (hs : resp.status = code) :
    ∀ c ∈ resp.cookies,
      c ∈ cookiesFor (sendHTTPRequest client (.ok resp) code).client.jar resp.url := by
  intro c hc
  have hmem : (resp.url, c) ∈ setCookies client.jar resp.url resp.cookies :=
    List.mem_append_right _ (List.mem_map.mpr ⟨c, hc, rfl⟩)
  have hcl : (sendHTTPRequest client (.ok resp) code).client.jar
      = setCookies client.jar resp.url resp.cookies := by
    simp [sendHTTPRequest, hb, hs]
  rw [hcl]
  unfold cookiesFor
  exact List.mem_map.mpr ⟨(resp.url, c), List.mem_filter.mpr ⟨hmem, by simp⟩, rfl⟩

/-- Claim C7 witness: a 302 login response carrying a session cookie;
after the send the cookie is retrievable for the response URL. -/
theorem C7_cookie_merge_witness :
    ({ name := "X", value := "1" } : Cookie) ∈
      cookiesFor (sendHTTPRequest
        { jar := [], timeoutMillis := 10000, redirect := .useLastResponse }
        (.ok { status := 302, body := .ok "",
               cookies := [{ name := "X", value := "1" }], url := "u" }) 302).client.jar
        "u" :=
  C7_cookie_merge _ _ "" 302 rfl rfl _ (by decide)

/-- Claim C10: on every error path of `sendHTTPRequest` (transport
failure, body-read failure or status mismatch) the client, cookie jar
included, is returned unchanged; cookies are merged only when the
status matches. -/
theorem C10_jar_unchanged_on_error (client : Client) (tr : TransportResult) (code : Nat)
    (herr : (sendHTTPRequest client tr code).err.isSome = true) :
    (sendHTTPRequest client tr code).client = client := by
  cases tr with
  | fail msg => rfl
  | ok resp =>
    cases hb : resp.body with
    | error msg => simp [sendHTTPRequest, hb]
    | ok body =>
      by_cases hs : resp.status ≠ code
      · simp [sendHTTPRequest, hb, hs]
      · exfalso
        simp [sendHTTPRequest, hb, hs] at herr

/-- Claim C10 witness: a transport failure leaves a non-empty jar
untouched. -/
theorem C10_jar_unchanged_on_error_witness :
    ((sendHTTPRequest (Client.mk [("a", Cookie.mk "A" "0")] 10000 .useLastResponse)
        (.fail "timeout") 200).err.isSome = true) ∧
    (sendHTTPRequest (Client.mk [("a", Cookie.mk "A" "0")] 10000 .useLastResponse)
        (.fail "timeout") 200).client
      = Client.mk [("a", Cookie.mk "A" "0")] 10000 .useLastResponse :=
  ⟨rfl, C10_jar_unchanged_on_error _ _ 200 rfl⟩

/-- Claim C4: with no availability `send` is a no-op succeeding with no
TOPIC lookup, no AWS configuration and no publish; with availability it
looks up TOPIC, fails when TOPIC is absent, and otherwise publishes the
fixed subject and the fixed message to the topic. -/
theorem C4_send (env : String → Option String) (awsCfg pub : Except String Unit) :
    send env awsCfg pub false = (.ok (), []) ∧
    (env "TOPIC" = none →
      send env awsCfg pub true
        = (.error "couldn't get TOPIC from environment", [.envLookup "TOPIC"])) ∧
    (∀ topic, env "TOPIC" = some topic → awsCfg = .ok () → pub = .ok () →
      send env awsCfg pub true
        = (.ok (), [.envLookup "TOPIC", .awsConfig,
            .snsPublish topic snsSubject snsMessage])) := by
  refine ⟨rfl, fun h => ?_, fun topic ht ha hp => ?_⟩
  · simp [send, h]
  · simp [send, ht, ha, hp]

/-- Claim C4 witness: both branches at concrete inputs. -/
theorem C4_send_witness :
    send (fun _ => none) (.ok ()) (.ok ()) false = (.ok (), []) ∧
    send (fun _ => none) (.ok ()) (.ok ()) true
      = (.error "couldn't get TOPIC from environment", [.envLookup "TOPIC"]) ∧
    send (fun _ => some "arn:topic") (.ok ()) (.ok ()) true
      = (.ok (), [.envLookup "TOPIC", .awsConfig,
          .snsPublish "arn:topic" snsSubject snsMessage]) :=
  ⟨(C4_send (fun _ => none) (.ok ()) (.ok ())).1,
   (C4_send (fun _ => none) (.ok ()) (.ok ())).2.1 rfl,
   (C4_send (fun _ => some "arn:topic") (.ok ()) (.ok ())).2.2 "arn:topic" rfl rfl rfl⟩

/-- Claim C8: a missing PERSONNR, PASSWORD or TOPIC makes the dependent
step (login for the first two, the notification on the available path
for TOPIC) fail with a distinct error naming the absent variable, and
no network or publish effect appears in that step's trace. -/
theorem C8_missing_env (client : Client) (tr : TransportResult) (now : Int)
    (env : String → Option String) (awsCfg pub : Except String Unit) :
    (env "PERSONNR" = none →
      login client env tr now
        = (.error "couldn't get PERSONNR from environment", [.envLookup "PERSONNR"])) ∧
    (∀ u, env "PERSONNR" = some u → env "PASSWORD" = none →
      login client env tr now
        = (.error "couldn't get PASSWORD from environment",
           [.envLookup "PERSONNR", .envLookup "PASSWORD"])) ∧
    (env "TOPIC" = none →
      send env awsCfg pub true
        = (.error "couldn't get TOPIC from environment", [.envLookup "TOPIC"])) ∧
    OccursIn "PERSONNR".toList "couldn't get PERSONNR from environment".toList ∧
    OccursIn "PASSWORD".toList "couldn't get PASSWORD from environment".toList ∧
    OccursIn "TOPIC".toList "couldn't get TOPIC from environment".toList ∧
    ("couldn't get PERSONNR from environment" : String)
      ≠ "couldn't get PASSWORD from environment" ∧
    ("couldn't get PERSONNR from environment" : String)
      ≠ "couldn't get TOPIC from environment" ∧
    ("couldn't get PASSWORD from environment" : String)
      ≠ "couldn't get TOPIC from environment" := by
  refine ⟨fun h => ?_, fun u hu h => ?_, fun h => ?_, ?_, ?_, ?_, ?_, ?_, ?_⟩
  · simp [login, createLoginPayload, h]
  · simp [login, createLoginPayload, hu, h]
  · simp [send, h]
  · exact ⟨"couldn't get ".toList, " from environment".toList, by decide⟩
  · exact ⟨"couldn't get ".toList, " from environment".toList, by decide⟩
  · exact ⟨"couldn't get ".toList, " from environment".toList, by decide⟩
  · decide
  · decide
  · decide

/-- Claim C8 witness: the three missing-variable scenarios at concrete
inputs. -/
theorem C8_missing_env_witness :
    login { jar := [], timeoutMillis := 10000, redirect := .useLastResponse }
        (fun _ => none) (.fail "x") 0
      = (.error "couldn't get PERSONNR from environment", [.envLookup "PERSONNR"]) ∧
    login { jar := [], timeoutMillis := 10000, redirect := .useLastResponse }
        (fun n => if n = "PERSONNR" then some "id" else none) (.fail "x") 0
      = (.error "couldn't get PASSWORD from environment",
         [.envLookup "PERSONNR", .envLookup "PASSWORD"]) ∧
    send (fun _ => none) (.ok ()) (.ok ()) true
      = (.error "couldn't get TOPIC from environment", [.envLookup "TOPIC"]) :=
  ⟨(C8_missing_env { jar := [], timeoutMillis := 10000, redirect := .useLastResponse }
      (.fail "x") 0 (fun _ => none) (.ok ()) (.ok ())).1 rfl,
   (C8_missing_env { jar := [], timeoutMillis := 10000, redirect := .useLastResponse }
      (.fail "x") 0 (fun n => if n = "PERSONNR" then some "id" else none)
      (.ok ()) (.ok ())).2.1 "id" (by decide) (by decide),
   (C8_missing_env { jar := [], timeoutMillis := 10000, redirect := .useLastResponse }
      (.fail "x") 0 (fun _ => none) (.ok ()) (.ok ())).2.2.1 rfl⟩

/-- Claim C3: with credentials present, when the login endpoint responds
with any status other than 302 the handler fails with the
status-mismatch error, and it returns before the availability check: no
GET request and no publish appears in the effect trace. -/
theorem C3_handler_login_not_302 (w : World) (now : Int) (resp : Response)
    (u p body : String)
    (hjar : w.jarFail = none)
    (hu : w.env "PERSONNR" = some u) (hp : w.env "PASSWORD" = some p)
    (htr : w.loginTransport = .ok resp) (hb : resp.body = .ok body)
    (hs : resp.status ≠ 302) :
    (handler w now).1 = .error (statusMismatchMsg 302 resp.status resp.url) ∧
    (∀ url, Effect.httpRequest "GET" url ∉ (handler w now).2) ∧
    (∀ topic subject message,
        Effect.snsPublish topic subject message ∉ (handler w now).2) := by
  have hh : handler w now
      = (.error (statusMismatchMsg 302 resp.status resp.url),
         [.envLookup "PERSONNR", .envLookup "PASSWORD",
          .httpRequest "POST" (createHTTPRequest "POST" loginURL
            ("Username=" ++ u ++ "&Password=" ++ p) headersList now).url]) := by
    simp [handler, createHTTPClient, cookiejarNew, hjar, login, createLoginPayload, hu, hp,
      htr, sendHTTPRequest, hb, hs, createHTTPRequest]
  rw [hh]
  refine ⟨rfl, fun url hmem => ?_, fun topic subject message hmem => ?_⟩
  · simp only [List.mem_cons, List.not_mem_nil, or_false] at hmem
    rcases hmem with h | h | h <;> first
      | exact Effect.noConfusion h
      | exact absurd (by injection h) (by decide : ¬ ("GET" : String) = "POST")
  · simp only [List.mem_cons, List.not_mem_nil, or_false] at hmem
    rcases hmem with h | h | h <;> exact Effect.noConfusion h

/-- Claim C3 witness: a 200 login response at a concrete world; the
handler fails with the mismatch error and its trace holds no GET and no
publish effect. -/
theorem C3_handler_login_not_302_witness :
    (handler
        { env := fun n => if n = "PERSONNR" then some "u"
                  else if n = "PASSWORD" then some "p" else none,
          jarFail := none,
          loginTransport := .ok { status := 200, body := .ok "", cookies := [],
                                  url := "https://final" },
          forradTransport := .fail "unused",
          awsConfig := .ok (), publishResult := .ok () } 0).1
      = .error (statusMismatchMsg 302 200 "https://final") ∧
    Effect.httpRequest "GET" "x" ∉
      (handler
        { env := fun n => if n = "PERSONNR" then some "u"
                  else if n = "PASSWORD" then some "p" else none,
          jarFail := none,
          loginTransport := .ok { status := 200, body := .ok "", cookies := [],
                                  url := "https://final" },
          forradTransport := .fail "unused",
          awsConfig := .ok (), publishResult := .ok () } 0).2 :=
  have h := C3_handler_login_not_302
    { env := fun n => if n = "PERSONNR" then some "u"
              else if n = "PASSWORD" then some "p" else none,
      jarFail := none,
      loginTransport := .ok { status := 200, body := .ok "", cookies := [],
                              url := "https://final" },
      forradTransport := .fail "unused",
      awsConfig := .ok (), publishResult := .ok () } 0
    { status := 200, body := .ok "", cookies := [], url := "https://final" }
    "u" "p" "" rfl (by decide) (by decide) rfl rfl (by decide)
  ⟨h.1, h.2.1 "x"⟩

end SthlmShem
